import Mathlib

/-! Shallow embedding of the RFP assistant backend module `server/excelProcessor.js`.
The repository carries two revisions of this module; the embedding follows the
current one (kept as `src/unnamed/part_000`, the revision with the greeting
short-circuit, the `MOCK_MODE` degraded branch and the defensive JSON parse;
`src/excelProcessor.js` is an earlier revision of the same module).

Modelling conventions: pure helpers become Lean functions; the remote
capabilities (OpenAI embedding, Pinecone vector store, chat completion) are
explicit oracle parameters returning `Except String` values (a thrown JS
exception is an `Except.error` carrying `error.message`); the process-wide
`MOCK_MODE` flag set by the startup probe is an explicit boolean argument;
JS mutable counters and the store contents are passed as explicit state. -/

set_option autoImplicit false
set_option maxRecDepth 2048

/-! ## List chunking (`_.chunk` of lodash, batch size 10 in the ingestion loop) -/

def chunkList {α : Type} (n : Nat) (l : List α) : List (List α) :=
  if _h : n = 0 then []
  else match l with
    | [] => []
    | x :: xs => (x :: xs).take n :: chunkList n ((x :: xs).drop n)
termination_by l.length
decreasing_by
  simp only [List.length_drop, List.length_cons]
  omega

theorem chunkList_flatten {α : Type} (n : Nat) (hn : 0 < n) :
    ∀ l : List α, (chunkList n l).flatten = l
  | [] => by
    rw [chunkList]
    simp [Nat.pos_iff_ne_zero.mp hn]
  | x :: xs => by
    rw [chunkList]
    simp only [Nat.pos_iff_ne_zero.mp hn, dite_false]
    have ih := chunkList_flatten n hn ((x :: xs).drop n)
    simp [ih, List.take_append_drop]
termination_by l => l.length
decreasing_by
  simp only [List.length_drop, List.length_cons]
  have := Nat.pos_iff_ne_zero.mp hn
  omega

/-! ## 32-bit arithmetic helpers and MD5
`generateStableId` calls node's `crypto.createHash('md5').update(content).digest('hex')`.
MD5 (RFC 1321) is embedded here over `Nat` with explicit reduction mod `2^32`;
the input string is UTF-8 encoded, as `hash.update` does for JS strings. -/

def u32 (n : Nat) : Nat := n % 4294967296

def not32 (n : Nat) : Nat := 4294967295 - n % 4294967296

def rotl32 (x s : Nat) : Nat :=
  u32 (((x % 4294967296) <<< s) ||| ((x % 4294967296) >>> (32 - s)))

def utf8Bytes (c : Char) : List Nat :=
  let n := c.toNat
  if n < 128 then [n]
  else if n < 2048 then [192 + n / 64, 128 + n % 64]
  else if n < 65536 then [224 + n / 4096, 128 + (n / 64) % 64, 128 + n % 64]
  else [240 + n / 262144, 128 + (n / 4096) % 64, 128 + (n / 64) % 64, 128 + n % 64]

def strBytes (s : String) : List Nat :=
  s.data.flatMap utf8Bytes

/-- The 64 MD5 round constants `K[i] = floor(2^32 * abs(sin(i+1)))` (RFC 1321). -/
def md5K : Array Nat :=
  #[0xd76aa478, 0xe8c7b756, 0x242070db, 0xc1bdceee,
    0xf57c0faf, 0x4787c62a, 0xa8304613, 0xfd469501,
    0x698098d8, 0x8b44f7af, 0xffff5bb1, 0x895cd7be,
    0x6b901122, 0xfd987193, 0xa679438e, 0x49b40821,
    0xf61e2562, 0xc040b340, 0x265e5a51, 0xe9b6c7aa,
    0xd62f105d, 0x02441453, 0xd8a1e681, 0xe7d3fbc8,
    0x21e1cde6, 0xc33707d6, 0xf4d50d87, 0x455a14ed,
    0xa9e3e905, 0xfcefa3f8, 0x676f02d9, 0x8d2a4c8a,
    0xfffa3942, 0x8771f681, 0x6d9d6122, 0xfde5380c,
    0xa4beea44, 0x4bdecfa9, 0xf6bb4b60, 0xbebfbc70,
    0x289b7ec6, 0xeaa127fa, 0xd4ef3085, 0x04881d05,
    0xd9d4d039, 0xe6db99e5, 0x1fa27cf8, 0xc4ac5665,
    0xf4292244, 0x432aff97, 0xab9423a7, 0xfc93a039,
    0x655b59c3, 0x8f0ccc92, 0xffeff47d, 0x85845dd1,
    0x6fa87e4f, 0xfe2ce6e0, 0xa3014314, 0x4e0811a1,
    0xf7537e82, 0xbd3af235, 0x2ad7d2bb, 0xeb86d391]

/-- The 64 MD5 per-round left-rotation amounts (RFC 1321). -/
def md5S : Array Nat :=
  #[7, 12, 17, 22, 7, 12, 17, 22, 7, 12, 17, 22, 7, 12, 17, 22,
    5, 9, 14, 20, 5, 9, 14, 20, 5, 9, 14, 20, 5, 9, 14, 20,
    4, 11, 16, 23, 4, 11, 16, 23, 4, 11, 16, 23, 4, 11, 16, 23,
    6, 10, 15, 21, 6, 10, 15, 21, 6, 10, 15, 21, 6, 10, 15, 21]

def wordLE (bs : List Nat) : Nat :=
  bs.getD 0 0 + 256 * bs.getD 1 0 + 65536 * bs.getD 2 0 + 16777216 * bs.getD 3 0

def md5Round (M : Array Nat) (st : Nat × Nat × Nat × Nat) (i : Nat) : Nat × Nat × Nat × Nat :=
  let a := st.1
  let b := st.2.1
  let c := st.2.2.1
  let d := st.2.2.2
  let fg : Nat × Nat :=
    if i < 16 then ((b &&& c) ||| (not32 b &&& d), i)
    else if i < 32 then ((d &&& b) ||| (not32 d &&& c), (5 * i + 1) % 16)
    else if i < 48 then (b ^^^ c ^^^ d, (3 * i + 5) % 16)
    else (c ^^^ (b ||| not32 d), (7 * i) % 16)
  let tmp := u32 (fg.1 + a + md5K.getD i 0 + M.getD fg.2 0)
  (d, u32 (b + rotl32 tmp (md5S.getD i 0)), b, c)

def md5ProcessBlock (st : Nat × Nat × Nat × Nat) (block : List Nat) : Nat × Nat × Nat × Nat :=
  let M : Array Nat := ((chunkList 4 block).map wordLE).toArray
  let r := (List.range 64).foldl (md5Round M) st
  (u32 (st.1 + r.1), u32 (st.2.1 + r.2.1), u32 (st.2.2.1 + r.2.2.1), u32 (st.2.2.2 + r.2.2.2))

def lePack8 (n : Nat) : List Nat :=
  (List.range 8).map fun i => (n >>> (8 * i)) % 256

def md5Pad (msg : List Nat) : List Nat :=
  let len := msg.length
  let z := (64 + 56 - ((len + 1) % 64)) % 64
  msg ++ [128] ++ List.replicate z 0 ++ lePack8 ((len * 8) % 18446744073709551616)

def hexDigit (n : Nat) : Char :=
  if n < 10 then Char.ofNat (48 + n) else Char.ofNat (87 + n)

def byteHex (b : Nat) : String :=
  String.mk [hexDigit ((b / 16) % 16), hexDigit (b % 16)]

def word32LEHex (w : Nat) : String :=
  byteHex (w % 256) ++ byteHex ((w >>> 8) % 256) ++ byteHex ((w >>> 16) % 256)
    ++ byteHex ((w >>> 24) % 256)

/-- MD5 digest of a string, lowercase hex, as node's
`crypto.createHash('md5').update(s).digest('hex')`. -/
def md5Hex (s : String) : String :=
  let blocks := chunkList 64 (md5Pad (strBytes s))
  let r := blocks.foldl md5ProcessBlock (0x67452301, 0xefcdab89, 0x98badcfe, 0x10325476)
  word32LEHex r.1 ++ word32LEHex r.2.1 ++ word32LEHex r.2.2.1 ++ word32LEHex r.2.2.2

/-! ## JS objects with string values
Row objects built during extraction (`rowData`) and the `filters` argument of
`queryRFPData` are plain JS objects whose values are strings. They are modelled
as association lists with JS assignment semantics: assigning an existing key
updates the value in place, a new key is appended (insertion order). JS
reorders integer-like keys ahead of other keys on enumeration; that reordering
is not modelled (no claim depends on enumeration order of such keys). -/

/-! String primitives of the JS runtime, written over the character list so
that concrete instances evaluate inside the kernel (the core `String`
versions recurse on byte positions and do not reduce definitionally).
`strTake` is `.slice(0, n)`, `strDrop` the matching suffix, `jsTrim` is
`.trim()`, `strToLower` is `.toLowerCase()` (ASCII range; no claim exercises
locale-specific case folding), `strIntercalate` is `Array.prototype.join`.
A character beyond the basic multilingual plane counts as one `Char` here but
as two JS code units; no claim exercises such input. -/

def strTake (s : String) (n : Nat) : String :=
  String.mk (s.data.take n)

def strDrop (s : String) (n : Nat) : String :=
  String.mk (s.data.drop n)

def jsTrim (s : String) : String :=
  String.mk (((s.data.dropWhile Char.isWhitespace).reverse.dropWhile
    Char.isWhitespace).reverse)

def strToLower (s : String) : String :=
  String.mk (s.data.map Char.toLower)

def strStartsWith (s pre : String) : Bool :=
  pre.data.isPrefixOf s.data

def strAllChars (s : String) (p : Char → Bool) : Bool :=
  s.data.all p

def strIntercalate (sep : String) : List String → String
  | [] => ""
  | [a] => a
  | a :: b :: rest => a ++ sep ++ strIntercalate sep (b :: rest)

abbrev JsObj := List (String × String)

def objGet (o : JsObj) (k : String) : Option String :=
  o.lookup k

def objSet (o : JsObj) (k v : String) : JsObj :=
  if (o.lookup k).isSome then o.map (fun p => if p.1 = k then (k, v) else p)
  else o ++ [(k, v)]

/-! ## JSON values, `JSON.stringify` of a row object, `JSON.parse`
The ingestion pipeline stores `JSON.stringify(item.originalData)` in the vector
metadata; the query service re-parses it defensively. `JSON.parse` is embedded
as a fuel-bounded recursive-descent reader returning `none` on any syntax
error (the JS exception's message is not consulted by the code). Number
lexemes are kept as raw text: no claim inspects parsed numeric values. -/

inductive Json where
  | null : Json
  | bool (b : Bool) : Json
  | num (lexeme : String) : Json
  | str (s : String) : Json
  | arr (elems : List Json) : Json
  | obj (fields : List (String × Json)) : Json

def jsEscapeChar (c : Char) : List Char :=
  if c = '"' then ['\\', '"']
  else if c = '\\' then ['\\', '\\']
  else if c = '\n' then ['\\', 'n']
  else if c = '\r' then ['\\', 'r']
  else if c = '\t' then ['\\', 't']
  else if c.toNat < 32 then
    ['\\', 'u', '0', '0', hexDigit ((c.toNat / 16) % 16), hexDigit (c.toNat % 16)]
  else [c]

def jsEscape (s : String) : String :=
  String.mk (s.data.flatMap jsEscapeChar)

def jsonStringify (o : JsObj) : String :=
  "\x7b" ++
    strIntercalate ","
      (o.map (fun p => "\"" ++ jsEscape p.1 ++ "\":\"" ++ jsEscape p.2 ++ "\"")) ++
    "\x7d"

def jsonWsChar (c : Char) : Bool :=
  c = ' ' || c = '\t' || c = '\n' || c = '\r'

def skipJsonWs : List Char → List Char
  | [] => []
  | c :: cs => if jsonWsChar c then skipJsonWs cs else c :: cs

def isJsonDigit (c : Char) : Bool :=
  48 ≤ c.toNat && c.toNat ≤ 57

def hexVal (c : Char) : Option Nat :=
  if 48 ≤ c.toNat ∧ c.toNat ≤ 57 then some (c.toNat - 48)
  else if 97 ≤ c.toNat ∧ c.toNat ≤ 102 then some (c.toNat - 87)
  else if 65 ≤ c.toNat ∧ c.toNat ≤ 70 then some (c.toNat - 55)
  else none

/-- Read the body of a JSON string (opening quote already consumed); returns the
decoded characters and the remaining input. Lone-surrogate `\uXXXX` escapes,
legal in JS strings, are mapped to the replacement value of `Char.ofNat`. -/
def readJsonString : List Char → Option (List Char × List Char)
  | [] => none
  | '"' :: rest => some ([], rest)
  | '\\' :: e :: rest =>
    match e with
    | '"' => (readJsonString rest).map (fun r => ('"' :: r.1, r.2))
    | '\\' => (readJsonString rest).map (fun r => ('\\' :: r.1, r.2))
    | '/' => (readJsonString rest).map (fun r => ('/' :: r.1, r.2))
    | 'b' => (readJsonString rest).map (fun r => (Char.ofNat 8 :: r.1, r.2))
    | 'f' => (readJsonString rest).map (fun r => (Char.ofNat 12 :: r.1, r.2))
    | 'n' => (readJsonString rest).map (fun r => ('\n' :: r.1, r.2))
    | 'r' => (readJsonString rest).map (fun r => ('\r' :: r.1, r.2))
    | 't' => (readJsonString rest).map (fun r => ('\t' :: r.1, r.2))
    | 'u' =>
      match rest with
      | h1 :: h2 :: h3 :: h4 :: rest2 =>
        match hexVal h1, hexVal h2, hexVal h3, hexVal h4 with
        | some a, some b, some c, some d =>
          (readJsonString rest2).map
            (fun r => (Char.ofNat (4096 * a + 256 * b + 16 * c + d) :: r.1, r.2))
        | _, _, _, _ => none
      | _ => none
    | _ => none
  | c :: rest =>
    if c.toNat < 32 then none
    else (readJsonString rest).map (fun r => (c :: r.1, r.2))

/-- Read the digits `[0-9]*` prefix; returns them and the rest. -/
def readDigits : List Char → List Char × List Char
  | [] => ([], [])
  | c :: rest =>
    if isJsonDigit c then
      let r := readDigits rest
      (c :: r.1, r.2)
    else ([], c :: rest)

/-- Read a JSON number lexeme starting at the input head. -/
def readJsonNumber (input : List Char) : Option (List Char × List Char) :=
  let (sign, afterSign) :=
    match input with
    | '-' :: rest => (['-'], rest)
    | _ => (([] : List Char), input)
  match afterSign with
  | [] => none
  | c :: _ =>
    if ¬ isJsonDigit c then none
    else
      let (intPart, afterInt) := readDigits afterSign
      -- JSON forbids leading zeros in multi-digit integer parts
      if intPart.length > 1 ∧ intPart.headD '0' = '0' then none
      else
        -- a `.` or exponent head not followed by a digit is left unconsumed,
        -- so the surrounding parse rejects the text, as JSON.parse does
        let (fracPart, afterFrac) :=
          match afterInt with
          | '.' :: rest =>
            let r := readDigits rest
            if r.1 = [] then (([] : List Char), afterInt) else ('.' :: r.1, r.2)
          | _ => ([], afterInt)
        let (expPart, afterExp) :=
          match afterFrac with
          | e :: rest =>
            if e = 'e' ∨ e = 'E' then
              match rest with
              | s :: rest2 =>
                if s = '+' ∨ s = '-' then
                  let r := readDigits rest2
                  if r.1 = [] then (([] : List Char), afterFrac) else (e :: s :: r.1, r.2)
                else
                  let r := readDigits rest
                  if r.1 = [] then (([] : List Char), afterFrac) else (e :: r.1, r.2)
              | [] => ([], afterFrac)
            else ([], afterFrac)
          | [] => ([], afterFrac)
        some (sign ++ intPart ++ fracPart ++ expPart, afterExp)

def startsWithChars (pre : List Char) (l : List Char) : Bool :=
  pre.isPrefixOf l

mutual

/-- Parse one JSON value at the input head (no leading whitespace). The fuel
decreases on every recursive call; `jsonParse` supplies enough for any input. -/
def readJsonValue : Nat → List Char → Option (Json × List Char)
  | 0, _ => none
  | _ + 1, [] => none
  | fuel + 1, input =>
    if startsWithChars ['n', 'u', 'l', 'l'] input then some (.null, input.drop 4)
    else if startsWithChars ['t', 'r', 'u', 'e'] input then some (.bool true, input.drop 4)
    else if startsWithChars ['f', 'a', 'l', 's', 'e'] input then some (.bool false, input.drop 5)
    else
      match input with
      | '"' :: rest =>
        (readJsonString rest).map fun r => (.str (String.mk r.1), r.2)
      | '\x7b' :: rest =>
        match skipJsonWs rest with
        | '\x7d' :: rest2 => some (.obj [], rest2)
        | rest2 =>
          (readJsonMembers fuel rest2).map fun r => (.obj r.1, r.2)
      | '[' :: rest =>
        match skipJsonWs rest with
        | ']' :: rest2 => some (.arr [], rest2)
        | rest2 =>
          (readJsonElems fuel rest2).map fun r => (.arr r.1, r.2)
      | _ =>
        (readJsonNumber input).map fun r => (.num (String.mk r.1), r.2)

/-- Parse ` "key" : value ( , "key" : value )* \x7d ` (members of an object;
leading whitespace already consumed). -/
def readJsonMembers : Nat → List Char → Option (List (String × Json) × List Char)
  | 0, _ => none
  | fuel + 1, input =>
    match input with
    | '"' :: rest =>
      match readJsonString rest with
      | none => none
      | some (key, afterKey) =>
        match skipJsonWs afterKey with
        | ':' :: afterColon =>
          match readJsonValue fuel (skipJsonWs afterColon) with
          | none => none
          | some (v, afterVal) =>
            match skipJsonWs afterVal with
            | ',' :: afterComma =>
              (readJsonMembers fuel (skipJsonWs afterComma)).map
                fun r => ((String.mk key, v) :: r.1, r.2)
            | '\x7d' :: rest2 => some ([(String.mk key, v)], rest2)
            | _ => none
        | _ => none
    | _ => none

/-- Parse ` value ( , value )* ] ` (elements of an array; leading whitespace
already consumed). -/
def readJsonElems : Nat → List Char → Option (List Json × List Char)
  | 0, _ => none
  | fuel + 1, input =>
    match readJsonValue fuel input with
    | none => none
    | some (v, afterVal) =>
      match skipJsonWs afterVal with
      | ',' :: afterComma =>
        (readJsonElems fuel (skipJsonWs afterComma)).map fun r => (v :: r.1, r.2)
      | ']' :: rest2 => some ([v], rest2)
      | _ => none

end

/-- `JSON.parse(s)`: `some` value on success, `none` when the JS call throws a
SyntaxError. -/
def jsonParse (s : String) : Option Json :=
  match readJsonValue (2 * s.length + 2) (skipJsonWs s.data) with
  | none => none
  | some (v, rest) => if skipJsonWs rest = [] then some v else none

/-! ## The greeting short-circuit of `queryRFPData`
`question.toLowerCase().match(/^(hi|hello|hey|greetings|howdy)[\s\.,!]*$/)`.
The JS `\s` class also holds exotic Unicode blanks; `Char.isWhitespace` (space,
tab, CR, LF) covers every character the claims exercise. -/

def greetingWords : List String :=
  ["hi", "hello", "hey", "greetings", "howdy"]

def isTrailingChar (c : Char) : Bool :=
  c.isWhitespace || c = '.' || c = ',' || c = '!'

def isGreeting (question : String) : Bool :=
  let s := strToLower question
  greetingWords.any fun w =>
    strStartsWith s w && strAllChars (strDrop s w.length) isTrailingChar

/-! ## Record extraction (`processExcelRFP`, lines 230-292 of the module)
The ExcelJS reader is the external collaborator: a worksheet is its output,
one list of `(colNumber, cell.text)` pairs per row (only cells with values
appear, 1-based ascending column numbers; list position k holds `rowNumber`
k+1, an empty list standing for a row ExcelJS would skip). Row 1 is the
header row. -/

structure Worksheet where
  name : String
  rows : List (List (Nat × String))

structure Workbook where
  worksheets : List Worksheet

/-- `headers[colNumber-1]`, after `worksheet.getRow(1).values.slice(1).map(h => h ? h.trim() : '')`:
the trimmed header text of a column, `""` when the cell is absent or blank. -/
def headerAt (headerRow : List (Nat × String)) (col : Nat) : String :=
  match headerRow.lookup col with
  | some h => jsTrim h
  | none => ""

/-- The `rowData` object built by `row.eachCell`: cells under a non-empty
header contribute `rowData[header] = cell.text.trim()`. -/
def rowToObj (headerRow : List (Nat × String)) (row : List (Nat × String)) : JsObj :=
  row.foldl
    (fun o cell =>
      let h := headerAt headerRow cell.1
      if h ≠ "" then objSet o h (jsTrim cell.2) else o)
    []

/-- The sheet's `jsonData`: each data row as an object, empty objects dropped. -/
def sheetJsonData (ws : Worksheet) : List JsObj :=
  let headerRow := ws.rows.headD []
  ((ws.rows.drop 1).map (rowToObj headerRow)).filter (fun o => o.length > 0)

def insertGrouped (acc : List (String × List JsObj)) (k : String) (row : JsObj) :
    List (String × List JsObj) :=
  if (acc.lookup k).isSome then
    acc.map (fun p => if p.1 = k then (p.1, p.2 ++ [row]) else p)
  else acc ++ [(k, [row])]

/-- `_.groupBy(jsonData, 'Category')`. A row without a `Category` key lands
under the object key `"undefined"`: lodash uses `item.Category` (the JS value
`undefined`) as a property key, and JS stringifies it. -/
def groupByCategory (rows : List JsObj) : List (String × List JsObj) :=
  rows.foldl
    (fun acc row =>
      let k := match objGet row "Category" with
        | some v => v
        | none => "undefined"
      insertGrouped acc k row)
    []

/-- `combinedText`: newline-joined `"key: value"` over the fields with a
non-empty (truthy) string value, in object enumeration order. -/
def combinedText (row : JsObj) : String :=
  strIntercalate "\n"
    ((row.filter (fun p => p.2 ≠ "")).map (fun p => p.1 ++ ": " ++ p.2))

/-- One element of `processedData`. -/
structure RfpItem where
  category : String
  sheetName : String
  text : String
  originalData : JsObj
deriving DecidableEq

/-- The records one worksheet contributes to `processedData`, in the grouped
enumeration order of the source loop. -/
def sheetRecords (ws : Worksheet) : List RfpItem :=
  (groupByCategory (sheetJsonData ws)).foldl
    (fun acc grp =>
      grp.2.foldl
        (fun acc2 item =>
          let t := combinedText item
          if jsTrim t ≠ "" then
            acc2 ++ [{ category := if grp.1 ≠ "" then grp.1 else "uncategorized",
                       sheetName := ws.name, text := t, originalData := item }]
          else acc2)
        acc)
    []

/-- `processedData`: the extraction phase over every worksheet. -/
def extractData (wb : Workbook) : List RfpItem :=
  wb.worksheets.foldl (fun acc ws => acc ++ sheetRecords ws) []

/-! ## The stable identifier generator -/

/-- The caller-supplied ingestion metadata. Only `rfpId` is read by the module
itself; any further caller fields are spread unchanged into the vector
metadata and are not modelled. -/
structure Metadata where
  rfpId : String
deriving DecidableEq

/-- The template literal
`` `${metadata.rfpId}-${item.sheetName}-${item.category}-${item.text.slice(0, 50)}` ``. -/
def stableContent (md : Metadata) (item : RfpItem) : String :=
  md.rfpId ++ "-" ++ item.sheetName ++ "-" ++ item.category ++ "-" ++ strTake item.text 50

/-- `generateStableId(metadata, item)`. -/
def generateStableId (md : Metadata) (item : RfpItem) : String :=
  md5Hex (stableContent md item)

/-! ## The retry executor `withRetry`
`withRetry(operation, maxRetries = 3, delay = 1000)`. The operation is an
oracle indexed by the invocation count (attempt `i` resolves or rejects as
`op i` says). The trace records the JS promise outcome — a value, a rejection,
or `undefined` when the loop body never runs — together with how many times
the operation was invoked and every sleep performed, in order. -/

inductive RetryOutcome (α : Type) where
  | value (a : α)
  | error (e : String)
  | undef
deriving DecidableEq

structure RetryTrace (α : Type) where
  outcome : RetryOutcome α
  calls : Nat
  sleeps : List Nat
deriving DecidableEq

def withRetryGo {α : Type} (op : Nat → Except String α) (i : Nat) (delay : Nat) :
    Nat → RetryTrace α
  | 0 => ⟨.undef, 0, []⟩
  | remaining + 1 =>
    match op i with
    | .ok a => ⟨.value a, 1, []⟩
    | .error e =>
      match remaining with
      | 0 => ⟨.error e, 1, []⟩
      | r + 1 =>
        let t := withRetryGo op (i + 1) (delay * 2) (r + 1)
        ⟨t.outcome, t.calls + 1, delay :: t.sleeps⟩

/-- `withRetry`. `maxRetries` is a JS number, so it is taken as an `Int`: a
non-positive bound means the `for` loop never runs and the promise resolves
with `undefined`. -/
def withRetry {α : Type} (op : Nat → Except String α) (maxRetries : Int) (delay : Nat) :
    RetryTrace α :=
  withRetryGo op 0 delay maxRetries.toNat

/-! ## The ingestion pipeline (`processExcelRFP`, lines 294-387)
The store phase is parameterized by the state type `σ` of the remote index and
by capability oracles giving, for each call the loop makes, the overall
outcome of the `withRetry`-wrapped remote operation (a resolved value or the
error that survived the retries). The code always fetches the singleton list
`[vectorId]` and then tests `existingVector[vectorId]`, so the fetch capability
is modelled as a single-id existence check. -/

structure VectorMeta where
  rfpId : String
  category : String
  sheetName : String
  text : String
  originalData : String
deriving DecidableEq

structure VectorRecord where
  id : String
  values : List Rat
  metadata : VectorMeta
deriving DecidableEq

/-- `{...metadata, category, sheetName, text, originalData: JSON.stringify(...)}`. -/
def mkVectorMeta (md : Metadata) (item : RfpItem) : VectorMeta :=
  { rfpId := md.rfpId, category := item.category, sheetName := item.sheetName,
    text := item.text, originalData := jsonStringify item.originalData }

structure IngestCaps (σ : Type) where
  fetchId : σ → String → Except String Bool
  embed : String → Except String (List Rat)
  upsert : σ → List VectorRecord → Except String σ

inductive IngestCall where
  | fetchC (id : String)
  | embedC (text : String)
  | upsertC (ids : List String)
deriving DecidableEq

def IngestCall.isEmbedC : IngestCall → Bool
  | .embedC _ => true
  | _ => false

inductive ItemResult where
  | staged (r : VectorRecord)
  | skippedItem
  | erroredItem
deriving DecidableEq

/-- The per-item body of the batch loop: compute the stable id, check the
store (a failed fetch check counts the record as absent and proceeds to the
upsert path), then embed and stage, skip, or charge one error. -/
def processItem {σ : Type} (caps : IngestCaps σ) (md : Metadata) (st : σ)
    (item : RfpItem) : ItemResult × List IngestCall :=
  let vid := generateStableId md item
  let found : Bool :=
    match caps.fetchId st vid with
    | .ok b => b
    | .error _ => false
  if found then (.skippedItem, [.fetchC vid])
  else
    match caps.embed item.text with
    | .ok emb =>
      (.staged { id := vid, values := emb, metadata := mkVectorMeta md item },
        [.fetchC vid, .embedC item.text])
    | .error _ => (.erroredItem, [.fetchC vid, .embedC item.text])

/-- One batch before its upload: `(processed, skipped, errors, batchOperations, calls)`.
Within a batch the store state never changes (the upsert happens afterwards). -/
def processBatch {σ : Type} (caps : IngestCaps σ) (md : Metadata) (st : σ) :
    List RfpItem → Nat × Nat × Nat × List VectorRecord × List IngestCall
  | [] => (0, 0, 0, [], [])
  | item :: rest =>
    let head := processItem caps md st item
    let r := processBatch caps md st rest
    match head.1 with
    | .staged rec => (r.1 + 1, r.2.1, r.2.2.1, rec :: r.2.2.2.1, head.2 ++ r.2.2.2.2)
    | .skippedItem => (r.1, r.2.1 + 1, r.2.2.1, r.2.2.2.1, head.2 ++ r.2.2.2.2)
    | .erroredItem => (r.1, r.2.1, r.2.2.1 + 1, r.2.2.2.1, head.2 ++ r.2.2.2.2)

/-- The batch upload: nothing for an empty staging list; otherwise one upsert,
whose final failure charges the whole staged batch to `errors`. Returns the
new store state, the error increment and the calls. -/
def uploadBatch {σ : Type} (caps : IngestCaps σ) (st : σ)
    (staged : List VectorRecord) : σ × Nat × List IngestCall :=
  if staged.length > 0 then
    match caps.upsert st staged with
    | .ok st2 => (st2, 0, [.upsertC (staged.map (·.id))])
    | .error _ => (st, staged.length, [.upsertC (staged.map (·.id))])
  else (st, 0, [])

/-- The whole store phase over the `_.chunk`ed batches:
`(processed, skipped, errors, final store state, calls)`. -/
def runBatches {σ : Type} (caps : IngestCaps σ) (md : Metadata) :
    σ → List (List RfpItem) → Nat × Nat × Nat × σ × List IngestCall
  | st, [] => (0, 0, 0, st, [])
  | st, batch :: rest =>
    let b := processBatch caps md st batch
    let u := uploadBatch caps st b.2.2.2.1
    let r := runBatches caps md u.1 rest
    (b.1 + r.1, b.2.1 + r.2.1, b.2.2.1 + u.2.1 + r.2.2.1, r.2.2.2.1,
      b.2.2.2.2 ++ u.2.2 ++ r.2.2.2.2)

structure IngestStats where
  totalItems : Nat
  processed : Nat
  skipped : Nat
  errors : Nat
deriving DecidableEq

structure IngestResult (σ : Type) where
  success : Bool
  stats : IngestStats
  sheets : List String
  mockMode : Option Bool
  finalStore : σ
  calls : List IngestCall

/-- `processExcelRFP(buffer, metadata)`: extraction, then either the
`MOCK_MODE` branch (synthetic stats, no store traffic) or the batched
dedup-embed-upsert phase. The workbook stands for the already-loaded buffer. -/
def processExcelRFP {σ : Type} (caps : IngestCaps σ) (mockMode : Bool)
    (wb : Workbook) (md : Metadata) (st : σ) : IngestResult σ :=
  let items := extractData wb
  if mockMode then
    { success := true,
      stats := { totalItems := items.length, processed := items.length,
                 skipped := 0, errors := 0 },
      sheets := wb.worksheets.map (·.name), mockMode := some true,
      finalStore := st, calls := [] }
  else
    let r := runBatches caps md st (chunkList 10 items)
    { success := true,
      stats := { totalItems := items.length, processed := r.1,
                 skipped := r.2.1, errors := r.2.2.1 },
      sheets := wb.worksheets.map (·.name), mockMode := none,
      finalStore := r.2.2.2.1, calls := r.2.2.2.2 }

/-- A reachable, consistent store for the idempotence claim: the state is the
list of upserted ids, the fetch check answers membership truthfully, the
embedding capability (any deterministic embedding `emb`) and the upserts
always succeed. -/
def reliableStore (emb : String → List Rat) : IngestCaps (List String) where
  fetchId st id := .ok (decide (id ∈ st))
  embed t := .ok (emb t)
  upsert st recs := .ok (st ++ recs.map (·.id))

/-! ## The retrieval-augmented query service (`queryRFPData`, lines 389-521)
Each remote capability is an oracle indexed by the attempt number, consumed
through `withRetry` exactly as in the source (three attempts, initial delay
1000ms). The result is paired with the list of capability invocations, so
"no call was made" is a provable statement. -/

structure MatchMeta where
  text : Option String
  category : Option String
  sheetName : Option String
  originalData : Option String

structure MatchRec where
  metadata : MatchMeta
  -- `match.score` is a JS number, possibly absent; similarity scores are only
  -- passed through, so any finite value is represented exactly as a rational
  score : Option Rat

structure QueryResponse where
  -- the `matches` field of the store's response (`matches` is reserved in Lean)
  matchList : Option (List MatchRec)

structure SourceContext where
  text : String
  originalData : Json
  category : String
  sheetName : String
  similarity : Option Rat

structure QueryResult where
  answer : String
  sources : List SourceContext
  mockMode : Option Bool
  error : Option String

structure QueryCaps where
  embed : Nat → Except String (List Rat)
  storeQuery : Nat → Except String QueryResponse
  complete : Nat → Except String String

inductive FilterCond where
  | eqCond (field value : String)
  | existsCond (field : String)
deriving DecidableEq

/-- The `filterConditions` object: explicit truthy `category` / `sheetName`
filters pass through as equality constraints, the empty filter object defaults
to "category must exist". -/
def buildFilterConditions (filters : JsObj) : List FilterCond :=
  if filters.length > 0 then
    (match objGet filters "category" with
      | some v => if v ≠ "" then [FilterCond.eqCond "category" v] else []
      | none => []) ++
    (match objGet filters "sheetName" with
      | some v => if v ≠ "" then [FilterCond.eqCond "sheetName" v] else []
      | none => [])
  else [FilterCond.existsCond "category"]

inductive QueryCall where
  | embedC
  | storeQueryC (filter : List FilterCond)
  | completeC (prompt : String)
deriving DecidableEq

def QueryCall.isCompleteC : QueryCall → Bool
  | .completeC _ => true
  | _ => false

def QueryCall.isStoreQueryC : QueryCall → Bool
  | .storeQueryC _ => true
  | _ => false

/-- The `withRetry`-wrapped outcome of one capability, with the invocation
count. The module always passes the defaults, so `maxRetries = 3` and the
`undef` outcome is unreachable; it is mapped to a rejection for totality. -/
def retriedEx {α : Type} (op : Nat → Except String α) : Except String α × Nat :=
  let t := withRetry op 3 1000
  (match t.outcome with
    | .value a => .ok a
    | .error e => .error e
    | .undef => .error "undefined", t.calls)

def greetingAnswer : String :=
  "Hello! I\x27m your RFP Assistant. I can help you find information in your RFP documents. How can I assist you today?"

def noInfoAnswer : String :=
  "I couldn\x27t find any relevant information for your question in the RFP documents. Could you try rephrasing your question or ask about a different aspect of the RFP?"

def mockAnswer (question : String) : String :=
  "I\x27m currently operating in demo mode without database access. Your question was: \"" ++
    question ++
    "\". In normal operation, I would search our RFP database and provide relevant information based on the documents you\x27ve uploaded."

def fallbackAnswer : String :=
  "I\x27m here to help with your RFP questions, but I\x27m having trouble connecting to my database right now. Could you please try again in a moment?"

def greetingResult : QueryResult :=
  { answer := greetingAnswer, sources := [], mockMode := none, error := none }

def mockResult (question : String) : QueryResult :=
  { answer := mockAnswer question, sources := [], mockMode := some true, error := none }

def noInfoResult : QueryResult :=
  { answer := noInfoAnswer, sources := [], mockMode := none, error := none }

/-- The graceful fallback of the top-level catch: the canned answer, the
caught error's message, no sources. -/
def fallbackResult (e : String) : QueryResult :=
  { answer := fallbackAnswer, sources := [], mockMode := none, error := some e }

/-- The SourceContext built per match: defensive JSON parse (`originalData`
absent, empty, non-string or unparsable degrades to the empty object), `||`
defaults for the labels. -/
def mkContext (m : MatchRec) : SourceContext :=
  let parsedOriginalData : Json :=
    match m.metadata.originalData with
    | some s =>
      if s ≠ "" then
        match jsonParse s with
        | some v => v
        | none => Json.obj []
      else Json.obj []
    | none => Json.obj []
  { text := (m.metadata.text.getD ""),
    originalData := parsedOriginalData,
    category := match m.metadata.category with
      | some c => if c ≠ "" then c else "unknown"
      | none => "unknown",
    sheetName := match m.metadata.sheetName with
      | some c => if c ≠ "" then c else "unknown"
      | none => "unknown",
    similarity := m.score }

/-- The user message assembled for the completion call. -/
def mkPrompt (contexts : List SourceContext) (question : String) : String :=
  "Context from RFP data:\n" ++
    strIntercalate "\n\n"
      (contexts.map fun c =>
        "[Sheet: " ++ c.sheetName ++ ", Category: " ++ c.category ++ "]\n" ++ c.text) ++
    "\n\nQuestion: " ++ question

/-- `queryRFPData(question, filters)`. Order of the source: greeting
short-circuit, question embedding (retried), filter conditions, `MOCK_MODE`
branch, store query (retried), zero-match branch, context assembly,
completion (retried); any rejection reaching the top-level catch becomes
`fallbackResult`. -/
def queryRFPData (mockMode : Bool) (caps : QueryCaps) (question : String)
    (filters : JsObj) : QueryResult × List QueryCall :=
  if isGreeting question then (greetingResult, [])
  else
    let e := retriedEx caps.embed
    let calls1 := List.replicate e.2 QueryCall.embedC
    match e.1 with
    | .error msg => (fallbackResult msg, calls1)
    | .ok _ =>
      let filterConditions := buildFilterConditions filters
      if mockMode then (mockResult question, calls1)
      else
        let q := retriedEx caps.storeQuery
        let calls2 := calls1 ++ List.replicate q.2 (QueryCall.storeQueryC filterConditions)
        match q.1 with
        | .error msg => (fallbackResult msg, calls2)
        | .ok resp =>
          match resp.matchList with
          | none => (noInfoResult, calls2)
          | some [] => (noInfoResult, calls2)
          | some (m :: ms) =>
            let contexts := (m :: ms).map mkContext
            let c := retriedEx caps.complete
            let calls3 :=
              calls2 ++ List.replicate c.2 (QueryCall.completeC (mkPrompt contexts question))
            match c.1 with
            | .error msg => (fallbackResult msg, calls3)
            | .ok ans =>
              ({ answer := ans, sources := contexts, mockMode := none, error := none },
                calls3)

/-! ## Theorems about the stable identifier (claim C2) -/

/-- C2 (counterexample): the claim "two calls that differ in at least one of
(rfpId, sheetName, category, text[0:50]) return different ids" fails at a
concrete input: the components are joined with `-` before hashing, so a dash
inside `rfpId` can shift the component boundaries. `("a-b","c","d","e")` and
`("a","b-c","d","e")` differ in `rfpId` (and `sheetName`) yet hash the same
content string `"a-b-c-d-e"`. -/
theorem generateStableId_collision_cex :
    generateStableId ⟨"a-b"⟩ ⟨"d", "c", "e", []⟩ =
      generateStableId ⟨"a"⟩ ⟨"d", "b-c", "e", []⟩ ∧
    (Metadata.mk "a-b").rfpId ≠ (Metadata.mk "a").rfpId := by
  constructor
  · exact congrArg md5Hex (by decide)
  · decide

/-- C2 (amended): `generateStableId` is a pure function of
`(metadata.rfpId, item.sheetName, item.category, item.text[0:50])` —
equal components always give equal ids (the distinctness half of the claim
does not hold: dash-ambiguous component tuples, and any md5 collisions,
give equal ids). -/
theorem generateStableId_deterministic (md1 md2 : Metadata) (i1 i2 : RfpItem)
    (h1 : md1.rfpId = md2.rfpId) (h2 : i1.sheetName = i2.sheetName)
    (h3 : i1.category = i2.category) (h4 : strTake i1.text 50 = strTake i2.text 50) :
    generateStableId md1 i1 = generateStableId md2 i2 := by
  unfold generateStableId stableContent
  rw [h1, h2, h3, h4]

/-- Witness for C2 (amended): two items equal in the first 50 characters of
their text (and in the other components) receive the same id. -/
theorem generateStableId_deterministic_witness :
    generateStableId ⟨"r1"⟩
      ⟨"security", "Sheet1", String.mk (List.replicate 50 'a') ++ "X", []⟩ =
    generateStableId ⟨"r1"⟩
      ⟨"security", "Sheet1", String.mk (List.replicate 50 'a') ++ "Y", []⟩ :=
  generateStableId_deterministic _ _ _ _ rfl rfl rfl (by decide)

/-! ## Theorems about extraction (claim C8) -/

/-- A one-sheet workbook whose header row has no `Category` column. -/
def wbNoCategory : Workbook :=
  ⟨[⟨"Sheet1", [[(1, "Question")], [(1, "What is the deadline?")]]⟩]⟩

/-- C8: the claim says a row whose field mapping has no `Category` key yields
an ExtractedRecord with category `"uncategorized"`. The code disagrees on this
concrete input: `_.groupBy(jsonData, 'Category')` files such a row under the
stringified key `"undefined"`, which is truthy, so the `category ||
'uncategorized'` fallback never fires for it (the fallback only catches an
empty-string `Category` value). -/
theorem extract_missingCategory_isUndefined :
    (extractData wbNoCategory).map (·.category) = ["undefined"] ∧
    ("undefined" : String) ≠ "uncategorized" :=
  ⟨rfl, by decide⟩

/-! ## Theorems about the retry executor (claims C9, C10) -/

theorem withRetryGo_succ {α : Type} (op : Nat → Except String α) (i delay remaining : Nat) :
    withRetryGo op i delay (remaining + 1) =
      match op i with
      | .ok a => ⟨.value a, 1, []⟩
      | .error e =>
        match remaining with
        | 0 => ⟨.error e, 1, []⟩
        | r + 1 =>
          let t := withRetryGo op (i + 1) (delay * 2) (r + 1)
          ⟨t.outcome, t.calls + 1, delay :: t.sleeps⟩ := by
  conv_lhs => rw [withRetryGo]

theorem withRetryGo_all_fail {α : Type} (op : Nat → Except String α) (err : Nat → String) :
    ∀ n : Nat, 0 < n → ∀ i d : Nat,
      (∀ j, j < n → op (i + j) = .error (err (i + j))) →
      (withRetryGo op i d n).outcome = .error (err (i + n - 1)) := by
  intro n
  induction n with
  | zero => omega
  | succ m ih =>
    intro _ i d hop
    have h0 : op i = .error (err i) := by simpa using hop 0 (by omega)
    cases m with
    | zero =>
      rw [withRetryGo_succ, h0]
      simp
    | succ r =>
      have hrec := ih (by omega) (i + 1) (d * 2) (fun j hj => by
        have := hop (j + 1) (by omega)
        simpa [Nat.add_assoc, Nat.add_comm 1 j] using this)
      rw [withRetryGo_succ, h0]
      show (withRetryGo op (i + 1) (d * 2) (r + 1)).outcome = _
      have heq : i + 1 + (r + 1) - 1 = i + (r + 1 + 1) - 1 := by omega
      rw [heq] at hrec
      exact hrec

/-- C9: against an operation failing on its first two invocations and
succeeding on the third, `withRetry` with `maxRetries = 3`, `delay = 1000`
returns the third invocation's value, makes exactly 3 calls, and sleeps
`[1000, 2000]` — cumulatively `initialDelay + 2*initialDelay` — before the
final attempt; and whenever an operation fails on all `maxRetries`
invocations, the last invocation's error propagates unchanged. -/
theorem withRetry_backoff_and_final_error {α : Type} (op : Nat → Except String α)
    (e0 e1 : String) (a : α)
    (h0 : op 0 = .error e0) (h1 : op 1 = .error e1) (h2 : op 2 = .ok a) :
    (withRetry op 3 1000 = ⟨.value a, 3, [1000, 2000]⟩ ∧
      (withRetry op 3 1000).sleeps.sum = 1000 + 2 * 1000) ∧
    ∀ (op2 : Nat → Except String α) (err : Nat → String) (n d : Nat), 0 < n →
      (∀ i, i < n → op2 i = .error (err i)) →
      (withRetry op2 (n : Int) d).outcome = .error (err (n - 1)) := by
  constructor
  · have s2 : withRetryGo op 2 4000 1 = ⟨.value a, 1, []⟩ := by
      rw [withRetryGo_succ, h2]
    have s1 : withRetryGo op 1 2000 2 = ⟨.value a, 2, [2000]⟩ := by
      rw [withRetryGo_succ, h1]
      show (⟨(withRetryGo op 2 4000 1).outcome, (withRetryGo op 2 4000 1).calls + 1,
              2000 :: (withRetryGo op 2 4000 1).sleeps⟩ : RetryTrace α) = _
      rw [s2]
    have s0 : withRetryGo op 0 1000 3 = ⟨.value a, 3, [1000, 2000]⟩ := by
      rw [withRetryGo_succ, h0]
      show (⟨(withRetryGo op 1 2000 2).outcome, (withRetryGo op 1 2000 2).calls + 1,
              1000 :: (withRetryGo op 1 2000 2).sleeps⟩ : RetryTrace α) = _
      rw [s1]
    have hval : withRetry op 3 1000 = ⟨.value a, 3, [1000, 2000]⟩ := s0
    exact ⟨hval, by rw [hval]; rfl⟩
  · intro op2 err n d hn hfail
    have := withRetryGo_all_fail op2 err n hn 0 d (fun j hj => by simpa using hfail j hj)
    simpa [withRetry] using this

/-- Witness for C9: a concrete operation failing twice then returning `7`. -/
theorem withRetry_backoff_and_final_error_witness :
    (withRetry (fun i => if i = 0 then .error "e0" else if i = 1 then .error "e1" else .ok 7)
        3 1000 = ⟨.value 7, 3, [1000, 2000]⟩ ∧
      (withRetry (fun i => if i = 0 then .error "e0" else if i = 1 then .error "e1" else .ok 7)
        3 1000).sleeps.sum = 1000 + 2 * 1000) ∧
    ∀ (op2 : Nat → Except String Nat) (err : Nat → String) (n d : Nat), 0 < n →
      (∀ i, i < n → op2 i = .error (err i)) →
      (withRetry op2 (n : Int) d).outcome = .error (err (n - 1)) :=
  withRetry_backoff_and_final_error _ "e0" "e1" 7 rfl rfl rfl

/-- C10: with a non-positive `maxRetries` the `for` loop of `withRetry` never
runs: the operation is never invoked, nothing is thrown, and the promise
resolves with `undefined`. -/
theorem withRetry_nonpositiveMax {α : Type} (op : Nat → Except String α)
    (maxRetries : Int) (d : Nat) (h : maxRetries ≤ 0) :
    withRetry op maxRetries d = ⟨.undef, 0, []⟩ := by
  have hm : maxRetries.toNat = 0 := Int.toNat_of_nonpos h
  simp [withRetry, hm, withRetryGo]

/-- Witness for C10 at `maxRetries = 0` (the JS default-free call site shape
`withRetry(op, 0)`). -/
theorem withRetry_nonpositiveMax_witness :
    withRetry (fun _ => (.ok 1 : Except String Nat)) 0 1000 = ⟨.undef, 0, []⟩ :=
  withRetry_nonpositiveMax _ 0 1000 (by decide)

/-! ## Theorems about the ingestion degraded mode (claim C4) -/

/-- C4: when the startup connectivity probe failed (`MOCK_MODE` true),
`processExcelRFP` returns `success = true`, `mockMode = true` and stats
exactly `{totalItems: n, processed: n, skipped: 0, errors: 0}` for `n` the
number of extracted records, touching neither the store state nor any of the
fetch / embed / upsert capabilities (the call trace is empty). -/
theorem processExcelRFP_mockMode {σ : Type} (caps : IngestCaps σ) (wb : Workbook)
    (md : Metadata) (st : σ) :
    processExcelRFP caps true wb md st =
      { success := true,
        stats := { totalItems := (extractData wb).length,
                   processed := (extractData wb).length, skipped := 0, errors := 0 },
        sheets := wb.worksheets.map (·.name), mockMode := some true,
        finalStore := st, calls := [] } :=
  rfl

/-! ## Theorems about the query service (claims C5, C7, C6, C3) -/

/-- C5: a question matching the greeting pattern (case-insensitive
whole-message match of one of the fixed greeting words, trailing whitespace
and punctuation allowed) returns the canned greeting answer with empty
sources, and the call trace is empty: neither the embedding gateway nor the
vector store gateway is invoked. -/
theorem queryRFPData_greetingShortCircuit (mockMode : Bool) (caps : QueryCaps)
    (question : String) (filters : JsObj) (h : isGreeting question = true) :
    queryRFPData mockMode caps question filters = (greetingResult, []) ∧
    greetingResult.sources = [] := by
  refine ⟨?_, rfl⟩
  simp [queryRFPData, h]

/-- A capability set whose every remote call rejects. -/
def deadCaps : QueryCaps where
  embed _ := .error "down"
  storeQuery _ := .error "down"
  complete _ := .error "down"

/-- Witness for C5 at `"Hello!"`: the greeting answer comes back with no
capability invocation even though every capability would reject. -/
theorem queryRFPData_greetingShortCircuit_witness :
    queryRFPData false deadCaps "Hello!" [] = (greetingResult, []) ∧
    greetingResult.sources = [] :=
  queryRFPData_greetingShortCircuit false deadCaps "Hello!" [] (by decide)

/-- C7: a non-greeting question whose store query (after retries) resolves
with zero matches — the `matches` field absent or the empty list — returns
the canned "no relevant information" answer with empty sources, and the
completion capability is never invoked. -/
theorem queryRFPData_zeroMatches (caps : QueryCaps) (question : String)
    (filters : JsObj) (emb : List Rat) (resp : QueryResponse)
    (hg : isGreeting question = false)
    (he : (retriedEx caps.embed).1 = .ok emb)
    (hs : (retriedEx caps.storeQuery).1 = .ok resp)
    (hm : resp.matchList = none ∨ resp.matchList = some []) :
    (queryRFPData false caps question filters).1 = noInfoResult ∧
    noInfoResult.sources = [] ∧
    ∀ c ∈ (queryRFPData false caps question filters).2, c.isCompleteC = false := by
  have hmain : queryRFPData false caps question filters =
      (noInfoResult,
        List.replicate (retriedEx caps.embed).2 QueryCall.embedC ++
          List.replicate (retriedEx caps.storeQuery).2
            (QueryCall.storeQueryC (buildFilterConditions filters))) := by
    rcases hm with hm | hm <;> simp [queryRFPData, hg, he, hs, hm]
  refine ⟨by rw [hmain], rfl, ?_⟩
  rw [hmain]
  intro c hc
  rcases List.mem_append.mp hc with h | h <;>
    rw [List.eq_of_mem_replicate h] <;> rfl

/-- A capability set whose store query resolves with an empty match list. -/
def emptyMatchCaps : QueryCaps where
  embed _ := .ok []
  storeQuery _ := .ok ⟨some []⟩
  complete _ := .ok "unused"

/-- Witness for C7 at a concrete non-greeting question and an empty match
list. -/
theorem queryRFPData_zeroMatches_witness :
    (queryRFPData false emptyMatchCaps "What is the SLA?" []).1 = noInfoResult ∧
    noInfoResult.sources = [] ∧
    ∀ c ∈ (queryRFPData false emptyMatchCaps "What is the SLA?" []).2,
      c.isCompleteC = false :=
  queryRFPData_zeroMatches emptyMatchCaps "What is the SLA?" [] [] ⟨some []⟩
    (by decide) rfl rfl (Or.inr rfl)

/-- C6: a stored match whose `originalData` is a string that fails to parse as
JSON does not abort the query: the retrieval flow completes, the answer comes
back with one SourceContext per match, and the SourceContext of the malformed
match carries the empty mapping as its `originalData`. -/
theorem queryRFPData_badJsonDegrades (caps : QueryCaps) (question : String)
    (filters : JsObj) (emb : List Rat) (ms : List MatchRec) (m : MatchRec)
    (ans s : String)
    (hg : isGreeting question = false)
    (he : (retriedEx caps.embed).1 = .ok emb)
    (hs : (retriedEx caps.storeQuery).1 = .ok ⟨some ms⟩)
    (hc : (retriedEx caps.complete).1 = .ok ans)
    (hmem : m ∈ ms)
    (hod : m.metadata.originalData = some s)
    (hbad : jsonParse s = none) :
    (queryRFPData false caps question filters).1 =
      { answer := ans, sources := ms.map mkContext, mockMode := none, error := none } ∧
    (mkContext m).originalData = Json.obj [] ∧
    mkContext m ∈ (queryRFPData false caps question filters).1.sources := by
  have hms : ∃ m0 rest, ms = m0 :: rest := by
    cases ms with
    | nil => cases hmem
    | cons a l => exact ⟨a, l, rfl⟩
  obtain ⟨m0, rest, hrw⟩ := hms
  subst hrw
  have hmain : (queryRFPData false caps question filters).1 =
      { answer := ans, sources := (m0 :: rest).map mkContext,
        mockMode := none, error := none } := by
    simp [queryRFPData, hg, he, hs, hc]
  have hctx : (mkContext m).originalData = Json.obj [] := by
    simp only [mkContext, hod]
    by_cases hempty : s = ""
    · simp [hempty]
    · simp [hempty, hbad]
  exact ⟨hmain, hctx, by rw [hmain]; exact List.mem_map_of_mem _ hmem⟩

/-- A capability set returning one match whose stored `originalData` is the
malformed JSON text `"{bad"`. -/
def badJsonMatch : MatchRec :=
  { metadata := { text := some "Q: x", category := some "security",
                  sheetName := some "Sheet1", originalData := some "\x7bbad" },
    score := none }

def badJsonCaps : QueryCaps where
  embed _ := .ok []
  storeQuery _ := .ok ⟨some [badJsonMatch]⟩
  complete _ := .ok "the answer"

/-- Witness for C6 at a concrete malformed stored record. -/
theorem queryRFPData_badJsonDegrades_witness :
    (queryRFPData false badJsonCaps "What is encrypted?" []).1 =
      { answer := "the answer", sources := [badJsonMatch].map mkContext,
        mockMode := none, error := none } ∧
    (mkContext badJsonMatch).originalData = Json.obj [] ∧
    mkContext badJsonMatch ∈ (queryRFPData false badJsonCaps "What is encrypted?" []).1.sources :=
  queryRFPData_badJsonDegrades badJsonCaps "What is encrypted?" [] []
    [badJsonMatch] badJsonMatch "the answer" "\x7bbad"
    (by decide) rfl rfl rfl (List.Mem.head _) rfl rfl

/-- C3: whatever the question, the filter object and the behaviour of the
embedding, store and completion capabilities — any of them may reject —
`queryRFPData` always yields a well-formed QueryResult and never rethrows:
the result is the canned greeting, the mock-mode answer, the canned
no-information answer, a completion answer carrying one SourceContext per
match, or the graceful fallback. Moreover each caught exception produces
exactly that fallback: a rejection of the (retried) embedding call, of the
store query, or of the completion call reaching the top-level catch yields
`fallbackResult` carrying that rejection's message, and every result whose
`error` field is set is `fallbackResult` of that message — the fallback
answer with the caught exception's message in `error` and empty sources. -/
theorem queryRFPData_neverRaises (mockMode : Bool) (caps : QueryCaps)
    (question : String) (filters : JsObj) :
    ((queryRFPData mockMode caps question filters).1 = greetingResult ∨
     (queryRFPData mockMode caps question filters).1 = mockResult question ∨
     (queryRFPData mockMode caps question filters).1 = noInfoResult ∨
     (∃ e, (queryRFPData mockMode caps question filters).1 = fallbackResult e) ∨
     (∃ ans ms, (queryRFPData mockMode caps question filters).1 =
       { answer := ans, sources := List.map mkContext ms,
         mockMode := none, error := none })) ∧
    (∀ e, isGreeting question = false → (retriedEx caps.embed).1 = .error e →
      (queryRFPData mockMode caps question filters).1 = fallbackResult e) ∧
    (∀ e emb, isGreeting question = false → (retriedEx caps.embed).1 = .ok emb →
      mockMode = false → (retriedEx caps.storeQuery).1 = .error e →
      (queryRFPData mockMode caps question filters).1 = fallbackResult e) ∧
    (∀ e emb m ms, isGreeting question = false →
      (retriedEx caps.embed).1 = .ok emb → mockMode = false →
      (retriedEx caps.storeQuery).1 = .ok ⟨some (m :: ms)⟩ →
      (retriedEx caps.complete).1 = .error e →
      (queryRFPData mockMode caps question filters).1 = fallbackResult e) ∧
    (∀ e, (queryRFPData mockMode caps question filters).1.error = some e →
      (queryRFPData mockMode caps question filters).1 = fallbackResult e) := by
  have hshape : (queryRFPData mockMode caps question filters).1 = greetingResult ∨
      (queryRFPData mockMode caps question filters).1 = mockResult question ∨
      (queryRFPData mockMode caps question filters).1 = noInfoResult ∨
      (∃ e, (queryRFPData mockMode caps question filters).1 = fallbackResult e) ∨
      (∃ ans ms, (queryRFPData mockMode caps question filters).1 =
        { answer := ans, sources := List.map mkContext ms,
          mockMode := none, error := none }) := by
    cases hg : isGreeting question with
    | true => exact Or.inl (by simp [queryRFPData, hg])
    | false =>
      cases he : (retriedEx caps.embed).1 with
      | error msg =>
        exact Or.inr (Or.inr (Or.inr (Or.inl ⟨msg, by simp [queryRFPData, hg, he]⟩)))
      | ok emb =>
        cases mockMode with
        | true => exact Or.inr (Or.inl (by simp [queryRFPData, hg, he]))
        | false =>
          cases hq : (retriedEx caps.storeQuery).1 with
          | error msg =>
            exact Or.inr (Or.inr (Or.inr (Or.inl
              ⟨msg, by simp [queryRFPData, hg, he, hq]⟩)))
          | ok resp =>
            cases hml : resp.matchList with
            | none =>
              exact Or.inr (Or.inr (Or.inl (by simp [queryRFPData, hg, he, hq, hml])))
            | some l =>
              cases l with
              | nil =>
                exact Or.inr (Or.inr (Or.inl (by simp [queryRFPData, hg, he, hq, hml])))
              | cons m rest =>
                cases hc : (retriedEx caps.complete).1 with
                | error msg =>
                  exact Or.inr (Or.inr (Or.inr (Or.inl
                    ⟨msg, by simp [queryRFPData, hg, he, hq, hml, hc]⟩)))
                | ok ans =>
                  exact Or.inr (Or.inr (Or.inr (Or.inr
                    ⟨ans, m :: rest, by simp [queryRFPData, hg, he, hq, hml, hc]⟩)))
  refine ⟨hshape, ?_, ?_, ?_, ?_⟩
  · intro e hg he
    simp [queryRFPData, hg, he]
  · intro e emb hg he hmock hq
    subst hmock
    simp [queryRFPData, hg, he, hq]
  · intro e emb m ms hg he hmock hq hc
    subst hmock
    simp [queryRFPData, hg, he, hq, hc]
  · intro e herr
    rcases hshape with h | h | h | ⟨msg, h⟩ | ⟨ans, ms0, h⟩
    · rw [h] at herr
      simp [greetingResult] at herr
    · rw [h] at herr
      simp [mockResult] at herr
    · rw [h] at herr
      simp [noInfoResult] at herr
    · rw [h] at herr ⊢
      simp [fallbackResult] at herr
      rw [herr]
    · rw [h] at herr
      simp at herr

/-- A capability set whose store query always rejects (the embedding and the
completion succeed). -/
def storeDownCaps : QueryCaps where
  embed _ := .ok []
  storeQuery _ := .error "ECONNREFUSED"
  complete _ := .ok "unused"

/-- Witness for C3: with the store query rejecting after its retries on a
non-greeting question, the result is exactly the fallback answer carrying the
caught message `"ECONNREFUSED"` in `error` with empty sources. -/
theorem queryRFPData_neverRaises_witness :
    (queryRFPData false storeDownCaps "What is the SLA window?" []).1 =
      fallbackResult "ECONNREFUSED" :=
  (queryRFPData_neverRaises false storeDownCaps "What is the SLA window?" []).2.2.1
    "ECONNREFUSED" [] (by decide) rfl rfl rfl

/-! ## Theorems about re-ingestion idempotence (claim C1) -/

theorem processItem_reliable (emb : String → List Rat) (md : Metadata)
    (st : List String) (item : RfpItem) :
    processItem (reliableStore emb) md st item =
      if generateStableId md item ∈ st then
        (.skippedItem, [.fetchC (generateStableId md item)])
      else
        (.staged { id := generateStableId md item, values := emb item.text,
                   metadata := mkVectorMeta md item },
          [.fetchC (generateStableId md item), .embedC item.text]) := by
  by_cases h : generateStableId md item ∈ st <;>
    simp [processItem, reliableStore, h]

theorem processBatch_allPresent (emb : String → List Rat) (md : Metadata)
    (st : List String) : ∀ batch : List RfpItem,
    (∀ it ∈ batch, generateStableId md it ∈ st) →
    processBatch (reliableStore emb) md st batch =
      (0, batch.length, 0, [],
        batch.map fun it => IngestCall.fetchC (generateStableId md it)) := by
  intro batch
  induction batch with
  | nil => intro _; rfl
  | cons a rest ih =>
    intro h
    have ha : generateStableId md a ∈ st := h a (List.mem_cons_self a rest)
    have hr := ih fun x hx => h x (List.mem_cons_of_mem a hx)
    simp [processBatch, processItem_reliable, ha, hr]

theorem processBatch_staged_cons (emb : String → List Rat) (md : Metadata)
    (st : List String) (a : RfpItem) (rest : List RfpItem) :
    (processBatch (reliableStore emb) md st (a :: rest)).2.2.2.1 =
      (if generateStableId md a ∈ st then [] else
        [{ id := generateStableId md a, values := emb a.text,
           metadata := mkVectorMeta md a }]) ++
      (processBatch (reliableStore emb) md st rest).2.2.2.1 := by
  by_cases h : generateStableId md a ∈ st <;>
    simp [processBatch, processItem_reliable, h]

theorem processBatch_covers (emb : String → List Rat) (md : Metadata)
    (st : List String) (batch : List RfpItem) (it : RfpItem) (hit : it ∈ batch) :
    generateStableId md it ∈ st ∨
    generateStableId md it ∈
      ((processBatch (reliableStore emb) md st batch).2.2.2.1).map (·.id) := by
  induction batch with
  | nil => cases hit
  | cons a rest ih =>
    rcases List.mem_cons.mp hit with heq | hmem
    · subst heq
      by_cases h : generateStableId md it ∈ st
      · exact Or.inl h
      · right
        rw [processBatch_staged_cons]
        simp [h]
    · rcases ih hmem with h | h
      · exact Or.inl h
      · right
        rw [processBatch_staged_cons]
        by_cases ha : generateStableId md a ∈ st <;> simp [ha, h]

theorem uploadBatch_reliable (emb : String → List Rat) (st : List String)
    (staged : List VectorRecord) :
    uploadBatch (reliableStore emb) st staged =
      (st ++ staged.map (·.id), 0,
        if staged.length > 0 then [IngestCall.upsertC (staged.map (·.id))] else []) := by
  cases staged with
  | nil => simp [uploadBatch]
  | cons a l => simp [uploadBatch, reliableStore]

theorem runBatches_store_cons (emb : String → List Rat) (md : Metadata)
    (st : List String) (b : List RfpItem) (rest : List (List RfpItem)) :
    (runBatches (reliableStore emb) md st (b :: rest)).2.2.2.1 =
      (runBatches (reliableStore emb) md
        (st ++ ((processBatch (reliableStore emb) md st b).2.2.2.1).map (·.id))
        rest).2.2.2.1 := by
  simp [runBatches, uploadBatch_reliable]

theorem runBatches_mono (emb : String → List Rat) (md : Metadata) :
    ∀ (bs : List (List RfpItem)) (st : List String) (x : String),
    x ∈ st → x ∈ (runBatches (reliableStore emb) md st bs).2.2.2.1 := by
  intro bs
  induction bs with
  | nil => intro st x hx; simpa [runBatches] using hx
  | cons b rest ih =>
    intro st x hx
    rw [runBatches_store_cons]
    exact ih _ x (List.mem_append_left _ hx)

theorem runBatches_covers (emb : String → List Rat) (md : Metadata) :
    ∀ (bs : List (List RfpItem)) (st : List String) (it : RfpItem),
    it ∈ bs.flatten →
    generateStableId md it ∈ (runBatches (reliableStore emb) md st bs).2.2.2.1 := by
  intro bs
  induction bs with
  | nil => intro st it hit; simp at hit
  | cons b rest ih =>
    intro st it hit
    rw [runBatches_store_cons]
    rw [List.flatten_cons] at hit
    rcases List.mem_append.mp hit with hb | hr
    · rcases processBatch_covers emb md st b it hb with h | h
      · exact runBatches_mono emb md rest _ _ (List.mem_append_left _ h)
      · exact runBatches_mono emb md rest _ _ (List.mem_append_right _ h)
    · exact ih _ it hr

theorem runBatches_allPresent (emb : String → List Rat) (md : Metadata) :
    ∀ (bs : List (List RfpItem)) (st : List String),
    (∀ it, it ∈ bs.flatten → generateStableId md it ∈ st) →
    runBatches (reliableStore emb) md st bs =
      (0, bs.flatten.length, 0, st,
        bs.flatten.map fun it => IngestCall.fetchC (generateStableId md it)) := by
  intro bs
  induction bs with
  | nil => intro st _; simp [runBatches]
  | cons b rest ih =>
    intro st h
    have hb : ∀ it ∈ b, generateStableId md it ∈ st := fun it hx => h it (by simp [hx])
    have hrest : ∀ it, it ∈ rest.flatten → generateStableId md it ∈ st := fun it hx =>
      h it (by simp [hx])
    have hpb := processBatch_allPresent emb md st b hb
    have hih := ih st hrest
    simp [runBatches, hpb, uploadBatch_reliable, hih]

/-- C1: re-running `processExcelRFP` on the same workbook and metadata against
a reachable store carrying the first run's upserts (any initial contents `s0`,
point fetches answering truthfully, embeds and upserts succeeding) skips every
record: the second run returns stats `processed = 0`,
`skipped = totalItems = n` (`errors = 0`), leaves the store unchanged, and its
trace holds one point fetch per record and no embedding call — every record's
stable id is found by the fetch check, so nothing is re-embedded. -/
theorem processExcelRFP_idempotent (emb : String → List Rat) (wb : Workbook)
    (md : Metadata) (s0 : List String) :
    processExcelRFP (reliableStore emb) false wb md
        (processExcelRFP (reliableStore emb) false wb md s0).finalStore =
      { success := true,
        stats := { totalItems := (extractData wb).length, processed := 0,
                   skipped := (extractData wb).length, errors := 0 },
        sheets := wb.worksheets.map (·.name), mockMode := none,
        finalStore := (processExcelRFP (reliableStore emb) false wb md s0).finalStore,
        calls := (extractData wb).map
          fun it => IngestCall.fetchC (generateStableId md it) } := by
  have hchunk := chunkList_flatten 10 (by norm_num) (extractData wb)
  have hcov : ∀ it ∈ extractData wb,
      generateStableId md it ∈
        (processExcelRFP (reliableStore emb) false wb md s0).finalStore := by
    intro it hit
    have hflat : it ∈ (chunkList 10 (extractData wb)).flatten := by
      rw [hchunk]; exact hit
    have := runBatches_covers emb md (chunkList 10 (extractData wb)) s0 it hflat
    simpa [processExcelRFP] using this
  have hall := runBatches_allPresent emb md (chunkList 10 (extractData wb))
    ((processExcelRFP (reliableStore emb) false wb md s0).finalStore)
    (fun it hx => hcov it (by rwa [hchunk] at hx))
  have hfs : (processExcelRFP (reliableStore emb) false wb md s0).finalStore =
      (runBatches (reliableStore emb) md s0 (chunkList 10 (extractData wb))).2.2.2.1 := by
    simp [processExcelRFP]
  rw [hfs] at hall
  simp [processExcelRFP, hall, hchunk]
